import Mathlib

/-!
Verification development for the lexer and parser of the
`brianhang/automatic-spork` interpreter (Go).

The Go sources are shallowly embedded: the `bufio.Reader` rune stream
becomes a `List Char` threaded through the scanning functions
(`UnreadRune` is re-prepending / leaving a rune at the head), the
tokenizer's mutable `line`/`column` fields (Go `int`) become explicit
`Int` arguments, and the parser's token cursor becomes an explicit `Nat`
index into the token list.  Fallible operations return sum types; the Go
runtime panic that slice indexing with a negative index produces is made
explicit as a distinguished `panicked` outcome.

Definitions follow `src/tokenize/tokenizer.go`, `src/tokenize/token.go`,
`src/parser/parser.go`, `src/parser/node.go` and `src/parser/error.go`.
-/

namespace Spork

/-- Token kinds, mirroring the `TokenID` constants of `token.go`. -/
inductive TokenID
  | eof
  | leftParen | rightParen | leftCurly | rightCurly
  | comma | dot | minus | plus | star | slash | semicolon
  | bang | bangEqual | equal | equalEqual
  | greater | greaterEqual | less | lessEqual
  | identifier | stringLit | number | trueKw | falseKw | nilKw
  | andKw | orKw | ifKw | elseKw | forKw | whileKw
  | funcKw | returnKw | classKw | superKw | thisKw
  deriving DecidableEq, Repr

/-- The `Token` struct of `token.go`: a kind plus 1-based line and column
(the column of the token's first character).  Go `int` fields are
modelled as `Int`. -/
structure Token where
  id : TokenID
  line : Int
  column : Int
  deriving DecidableEq, Repr

/-- The `TokenHolder` interface of `token.go` together with its four
implementations: a payload-free `Token`, `StringToken` (decoded string
value), `NumberToken` and `IdentifierToken`.  `NumberToken.value` is a
`float64` obtained by `strconv.ParseFloat` of the accumulated literal
text; the embedding keeps that text itself (ParseFloat's float range
errors are not modelled). -/
inductive TokenHolder
  | plain (t : Token)
  | stringTok (t : Token) (value : String)
  | numberTok (t : Token) (text : String)
  | identifierTok (t : Token) (value : String)
  deriving DecidableEq, Repr

/-- `TokenHolder.GetToken` of `token.go`. -/
def TokenHolder.GetToken : TokenHolder → Token
  | .plain t => t
  | .stringTok t _ => t
  | .numberTok t _ => t
  | .identifierTok t _ => t

/-- `TokenHolder.GetID` of `token.go`. -/
def TokenHolder.GetID (t : TokenHolder) : TokenID := t.GetToken.id

/-- `TokenHolder.GetLine` of `token.go`. -/
def TokenHolder.GetLine (t : TokenHolder) : Int := t.GetToken.line

/-- `TokenHolder.GetColumn` of `token.go`. -/
def TokenHolder.GetColumn (t : TokenHolder) : Int := t.GetToken.column

/-- The lexer error values of `token.go`: `UnexpectedCharacterError`,
`UnterminatedStringError`, and (as `invalidNumber`) a propagated
`strconv.ParseFloat` syntax error from `number()`. -/
inductive LexError
  | unexpectedCharacter (character : Char) (line column : Int)
  | unterminatedString (delimiter : Char) (line column : Int)
  | invalidNumber
  deriving DecidableEq, Repr

/-- The `singleRuneTokenType` map of `tokenizer.go` (note: it contains
`,`, `-`, `+`, `*` but not `.` or `/`). -/
def singleRuneTokenType (r : Char) : Option TokenID :=
  if r = '(' then some .leftParen
  else if r = ')' then some .rightParen
  else if r = '{' then some .leftCurly
  else if r = '}' then some .rightCurly
  else if r = ',' then some .comma
  else if r = '-' then some .minus
  else if r = '+' then some .plus
  else if r = '*' then some .star
  else if r = ';' then some .semicolon
  else none

/-- The `keywordTokenTypes` map of `tokenizer.go`. -/
def keywordTokenTypes (s : String) : Option TokenID :=
  if s = "true" then some .trueKw
  else if s = "false" then some .falseKw
  else if s = "nil" then some .nilKw
  else if s = "and" then some .andKw
  else if s = "or" then some .orKw
  else if s = "if" then some .ifKw
  else if s = "else" then some .elseKw
  else if s = "for" then some .forKw
  else if s = "while" then some .whileKw
  else if s = "func" then some .funcKw
  else if s = "return" then some .returnKw
  else if s = "class" then some .classKw
  else if s = "super" then some .superKw
  else if s = "this" then some .thisKw
  else none

/-- Models `unicode.IsSpace` on the code points this language uses
(ASCII whitespace). -/
def isSpaceRune (r : Char) : Bool :=
  r == ' ' || r == '\t' || r == '\n' || r == '\x0b' || r == '\x0c' || r == '\r'

/-- Models `unicode.IsDigit` (ASCII digits). -/
def isDigitRune (r : Char) : Bool := r.isDigit

/-- Models `unicode.IsLetter` (ASCII letters). -/
def isLetterRune (r : Char) : Bool := r.isAlpha

/-- `isRuneStartOfIdentifier` of `tokenizer.go`. -/
def isRuneStartOfIdentifier (r : Char) : Bool := r == '_' || isLetterRune r

/-- `isIdentifierRune` of `tokenizer.go`. -/
def isIdentifierRune (r : Char) : Bool := isRuneStartOfIdentifier r || isDigitRune r

/-- `consumeIfNext` of `tokenizer.go`: consume the next rune only if it
equals `expected`, otherwise leave it unconsumed.  The column counter is
not touched in either case. -/
def consumeIfNext (expected : Char) : List Char → Bool × List Char
  | [] => (false, [])
  | r :: rest => if r = expected then (true, rest) else (false, r :: rest)

/-- `consumeUntilEOL` of `tokenizer.go`: discard runes up to the next
newline, which is unread (left at the head); the column counter is not
touched. -/
def consumeUntilEOL : List Char → List Char
  | [] => []
  | r :: rest => if r = '\n' then r :: rest else consumeUntilEOL rest

/-- The scanning loop of `Tokenizer.string` in `tokenizer.go`.
`tokLine`/`tokCol` are the fields of the `StringToken` captured at entry
(the opening delimiter's position); `column` is the tokenizer's column
counter, incremented once per rune read; `isEscaping` and `acc` are the
loop's escape flag and `strings.Builder`.  Reaching end of input yields
`UnterminatedStringError` built from the entry-time token fields. -/
def scanString (delimiter : Char) (tokLine tokCol : Int) (column : Int)
    (isEscaping : Bool) (acc : String) :
    List Char → Except LexError (String × Int × List Char)
  | [] => .error (.unterminatedString delimiter tokLine tokCol)
  | r :: rest =>
    let column := column + 1
    if isEscaping then
      let acc :=
        if r = '\\' ∨ r = delimiter then acc.push r
        else if r = 'n' then acc.push '\n'
        else if r = 'r' then acc.push '\r'
        else if r = 't' then acc.push '\t'
        else if r = 'b' then acc.push '\x08'
        else if r = 'f' then acc.push '\x0c'
        else acc
      scanString delimiter tokLine tokCol column false acc rest
    else if r = '\\' then
      scanString delimiter tokLine tokCol column true acc rest
    else if r = delimiter then
      .ok (acc, column, rest)
    else
      scanString delimiter tokLine tokCol column false (acc.push r) rest

/-- The scanning loop of `Tokenizer.number` in `tokenizer.go`.  The rune
that triggered `number()` has been unread, so the loop's input starts
with it.  A `.` is accepted once without a column bump; a digit bumps
the column (this re-counts the literal's first rune, already counted by
`Tokenize`); anything else — including a second `.` — is left unconsumed
and ends the literal. -/
def scanNumberAux (isFractional : Bool) (column : Int) (acc : String) :
    List Char → String × Int × List Char
  | [] => (acc, column, [])
  | r :: rest =>
    if r = '.' then
      if isFractional then (acc, column, r :: rest)
      else scanNumberAux true column (acc.push '.') rest
    else if isDigitRune r then
      scanNumberAux isFractional (column + 1) (acc.push r) rest
    else
      (acc, column, r :: rest)

/-- Success criterion of the `strconv.ParseFloat` call in `number()` on
the texts this loop can accumulate (digits with at most one `.`): it
succeeds exactly when at least one digit is present (float range errors
are not modelled). -/
def parseFloatOk (text : String) : Bool := text.data.any isDigitRune

/-- The scanning loop of `Tokenizer.identifier` in `tokenizer.go`.  The
triggering rune has been unread and the column decremented; every
accepted identifier rune bumps the column. -/
def scanIdentifierAux (column : Int) (acc : String) :
    List Char → String × Int × List Char
  | [] => (acc, column, [])
  | r :: rest =>
    if isIdentifierRune r then scanIdentifierAux (column + 1) (acc.push r) rest
    else (acc, column, r :: rest)

/-- Outcome of one iteration of the `Tokenize` loop: emit a token, skip
(whitespace or comment), or stop with a lexer error. -/
inductive StepResult
  | emit (t : TokenHolder) (rest : List Char) (line column : Int)
  | skip (rest : List Char) (line column : Int)
  | fail (e : LexError)
  deriving Repr

/-- The `switch r` statement in the `Tokenize` loop of `tokenizer.go`
for one rune `r` (already read, with `column` already incremented for
it), in source order.  The dead `','`/`'-'`/`'+'`/`'*'` cases (already
covered by the `singleRuneTokenType` map) are kept. -/
def tokenizeSwitch (r : Char) (input : List Char) (line column : Int) : StepResult :=
  if r = ',' then .emit (.plain ⟨.comma, line, column⟩) input line column
  else if r = '.' then
    match scanNumberAux false column "" (r :: input) with
    | (text, column', rest) =>
      if parseFloatOk text then
        .emit (.numberTok ⟨.number, line, column⟩ text) rest line column'
      else
        .emit (.plain ⟨.dot, line, column⟩) rest line column'
  else if r = '-' then .emit (.plain ⟨.minus, line, column⟩) input line column
  else if r = '+' then .emit (.plain ⟨.plus, line, column⟩) input line column
  else if r = '*' then .emit (.plain ⟨.star, line, column⟩) input line column
  else if r = '/' then
    match consumeIfNext '/' input with
    | (true, rest) => .skip (consumeUntilEOL rest) line column
    | (false, rest) => .emit (.plain ⟨.slash, line, column⟩) rest line column
  else if r = '!' then
    match consumeIfNext '=' input with
    | (true, rest) => .emit (.plain ⟨.bangEqual, line, column⟩) rest line column
    | (false, rest) => .emit (.plain ⟨.bang, line, column⟩) rest line column
  else if r = '=' then
    match consumeIfNext '=' input with
    | (true, rest) => .emit (.plain ⟨.equalEqual, line, column⟩) rest line column
    | (false, rest) => .emit (.plain ⟨.equal, line, column⟩) rest line column
  else if r = '>' then
    match consumeIfNext '=' input with
    | (true, rest) => .emit (.plain ⟨.greaterEqual, line, column⟩) rest line column
    | (false, rest) => .emit (.plain ⟨.greater, line, column⟩) rest line column
  else if r = '<' then
    match consumeIfNext '=' input with
    | (true, rest) => .emit (.plain ⟨.lessEqual, line, column⟩) rest line column
    | (false, rest) => .emit (.plain ⟨.less, line, column⟩) rest line column
  else if r = '"' ∨ r = '\'' then
    match scanString r line column column false "" input with
    | .error e => .fail e
    | .ok (value, column', rest) =>
      .emit (.stringTok ⟨.stringLit, line, column⟩ value) rest line column'
  else if isDigitRune r then
    match scanNumberAux false column "" (r :: input) with
    | (text, column', rest) =>
      if parseFloatOk text then
        .emit (.numberTok ⟨.number, line, column⟩ text) rest line column'
      else
        .fail .invalidNumber
  else if isRuneStartOfIdentifier r then
    match scanIdentifierAux (column - 1) "" (r :: input) with
    | (value, column', rest) =>
      match keywordTokenTypes value with
      | some kw => .emit (.identifierTok ⟨kw, line, column⟩ "") rest line column'
      | none => .emit (.identifierTok ⟨.identifier, line, column⟩ value) rest line column'
  else
    .fail (.unexpectedCharacter r line column)

/-- The body of the `Tokenize` loop of `tokenizer.go` for one rune `r`
(already read, with `column` already incremented for it): the
`singleRuneTokenType` lookup, the whitespace/newline handling, then the
rune switch. -/
def tokenizeStep (r : Char) (input : List Char) (line column : Int) : StepResult :=
  match singleRuneTokenType r with
  | some tokenID => .emit (.plain ⟨tokenID, line, column⟩) input line column
  | none =>
    if isSpaceRune r then
      if r = '\n' then .skip input (line + 1) 0
      else .skip input line column
    else tokenizeSwitch r input line column

/-- Prepend an emitted token to the result of the rest of the run. -/
def consToken (t : TokenHolder) :
    List TokenHolder × Option LexError → List TokenHolder × Option LexError
  | (ts, e) => (t :: ts, e)

/-- The `Tokenize` loop of `tokenizer.go`: read a rune, increment the
column, and dispatch through `tokenizeStep`.  `fuel` bounds the number
of iterations; since every iteration consumes at least one rune,
`Tokenize` below supplies enough fuel for any input. -/
def tokenizeLoop : Nat → List Char → Int → Int → List TokenHolder × Option LexError
  | 0, _, _, _ => ([], none)
  | _ + 1, [], _, _ => ([], none)
  | fuel + 1, r :: input, line, column =>
    match tokenizeStep r input line (column + 1) with
    | .emit t rest line' column' => consToken t (tokenizeLoop fuel rest line' column')
    | .skip rest line' column' => tokenizeLoop fuel rest line' column'
    | .fail e => ([], some e)

/-- `Tokenize` of `tokenizer.go` on a whole source string: the tokenizer
starts at line 1, column 0. -/
def Tokenize (source : String) : List TokenHolder × Option LexError :=
  tokenizeLoop (source.data.length + 1) source.data 1 0

end Spork

namespace Spork

/-- The AST node variants of `node.go`.  Interface-typed fields that can
be left nil by the parser are `Option`; struct-valued fields that are
never assigned keep their Go zero value (`WhileNode.Condition` is `none`,
`BlockNode.BodyStart`/`BodyEnd` stay the zero `Token`). -/
inductive Node
  | conditional (ifTok : TokenHolder) (condition : Node) (trueBody : Node)
      (elseTok : Option TokenHolder) (falseBody : Option Node)
  | whileNode (whileTok : TokenHolder) (condition : Option Node) (body : Node)
  | forNode (forTok : TokenHolder) (initExpr : Option Node) (condition : Option Node)
      (update : Option Node) (body : Node)
  | blockNode (bodyStart : Token) (children : List Node) (bodyEnd : Token)
  | assignmentNode (lhs : TokenHolder) (equal : TokenHolder) (rhs : Node)
  | callNode (function : Node) (leftParen : TokenHolder) (args : List Node)
      (rightParen : TokenHolder)
  | funcNode (funcTok : TokenHolder) (leftParen : Option TokenHolder)
      (params : List TokenHolder) (rightParen : Option TokenHolder) (body : Node)
  | returnNode (returnTok : TokenHolder) (value : Option Node)
  | classNode (classTok : TokenHolder) (extendsTok : Option TokenHolder)
      (parentClass : Option TokenHolder) (bodyStart : TokenHolder)
      (body : List Node) (bodyEnd : TokenHolder)
  | logicalExpr (lhs : Node) (operator : TokenHolder) (rhs : Node)
  | binaryExpr (lhs : Node) (operator : Token) (rhs : Node)
  | unaryExpr (operator : Token) (operand : Node)
  | lookupNode (value : Node) (key : TokenHolder)
  | literalNode (value : TokenHolder)
  deriving Repr

/-- The Go zero value of the `Token` struct (`TokenID` 0 is `TokenEOF`). -/
def zeroToken : Token := ⟨.eof, 0, 0⟩

/-- The parser error values of `error.go`.  Fields holding a possibly-nil
`TokenHolder` are `Option`. -/
inductive PError
  | unexpectedToken (token : TokenHolder)
  | expectedToken (expected : TokenID) (actual : Option TokenHolder) (last : Option TokenHolder)
  | expectedStatement (last : Option TokenHolder)
  | expectedExpression (last : Option TokenHolder)
  | invalidAssignmentTarget (target : Option TokenHolder)
  | noValue (last : Option TokenHolder)
  | invalidFuncParam (actual : Node)
  deriving Repr

/-- Outcome of one parser routine: a value plus the new cursor, an error
(the partial node the Go routine pairs with its error is discarded by
every caller and by `Parse`, so it is not carried), a Go runtime panic,
or fuel exhaustion of the embedding (never reached from `Parse`). -/
inductive PResult (α : Type)
  | ok (value : α) (cursor : Nat)
  | err (e : PError)
  | panicked
  | outOfFuel
  deriving Repr

/-- Sequencing that mirrors the `if err != nil { return ..., err }`
pattern: errors, panics and fuel exhaustion propagate. -/
def PResult.bind {α β : Type} : PResult α → (α → Nat → PResult β) → PResult β
  | .ok a cur, f => f a cur
  | .err e, _ => .err e
  | .panicked, _ => .panicked
  | .outOfFuel, _ => .outOfFuel

/-- Wrap a node result as an optional-node result (a Go interface value
built from a concrete node is never nil). -/
def asSome : PResult Node → PResult (Option Node)
  | .ok n cur => .ok (some n) cur
  | .err e => .err e
  | .panicked => .panicked
  | .outOfFuel => .outOfFuel

/-- `tokenAtOffset` of `parser.go` (the version without a negative-index
guard): an index past the end returns nil, but a negative index reaches
Go slice indexing, which panics at run time — modelled by the outer
`none`. -/
def tokenAtOffset (tks : List TokenHolder) (cur : Nat) (offset : Int) :
    Option (Option TokenHolder) :=
  let idx : Int := (cur : Int) + offset
  if (tks.length : Int) ≤ idx then some none
  else if idx < 0 then none
  else some tks[idx.toNat]?

/-- `peek` of `parser.go`: `tokenAtOffset` at offset 0, which never
panics. -/
def peek (tks : List TokenHolder) (cur : Nat) : Option TokenHolder := tks[cur]?

/-- `last` of `parser.go`: `tokenAtOffset` at offset -1; panics (outer
`none`) when the cursor is still 0 and the token list is non-empty. -/
def last (tks : List TokenHolder) (cur : Nat) : Option (Option TokenHolder) :=
  tokenAtOffset tks cur (-1)

/-- `maybeMatch` of `parser.go`: consume and return the next token only
if its kind is `id`. -/
def maybeMatch (tks : List TokenHolder) (id : TokenID) (cur : Nat) :
    Option (TokenHolder × Nat) :=
  match peek tks cur with
  | none => none
  | some token => if token.GetID = id then some (token, cur + 1) else none

/-- The `for _, tokenID := range ids` / `maybeMatch` pattern used by
`atom`, `unary` and `binaryExpression`: first kind that matches wins. -/
def maybeMatchFirst (tks : List TokenHolder) (ids : List TokenID) (cur : Nat) :
    Option (TokenHolder × Nat) :=
  match ids with
  | [] => none
  | id :: rest =>
    match maybeMatch tks id cur with
    | some r => some r
    | none => maybeMatchFirst tks rest cur

/-- `match` of `parser.go`: like `maybeMatch` but a failed match builds
an `ExpectedTokenError` via `p.last()` — whose evaluation can panic. -/
def matchTok (tks : List TokenHolder) (id : TokenID) (cur : Nat) :
    PResult TokenHolder :=
  match maybeMatch tks id cur with
  | some (token, cur') => .ok token cur'
  | none =>
    match last tks cur with
    | none => .panicked
    | some l => .err (.expectedToken id none l)

/-- `matchIdentifier` of `parser.go`: `match` followed by a checked type
assertion to `IdentifierToken`. -/
def matchIdentifier (tks : List TokenHolder) (id : TokenID) (cur : Nat) :
    PResult TokenHolder :=
  match matchTok tks id cur with
  | .ok token cur' =>
    match token with
    | .identifierTok .. => .ok token cur'
    | _ =>
      match last tks cur' with
      | none => .panicked
      | some l => .err (.expectedToken id (some token) l)
  | r => r

/-- `atomicTokenIDs` of `parser.go`. -/
def atomicTokenIDs : List TokenID :=
  [.identifier, .number, .stringLit, .trueKw, .falseKw, .nilKw]

/-- `unaryOperatorTokenIDs` of `parser.go`. -/
def unaryOperatorTokenIDs : List TokenID := [.bang, .minus]

/-- `factorOperatorTokenIDs` of `parser.go`. -/
def factorOperatorTokenIDs : List TokenID := [.star, .slash]

/-- `termOperatorTokenIDs` of `parser.go`. -/
def termOperatorTokenIDs : List TokenID := [.plus, .minus]

/-- `comparisonOperatorTokenIDs` of `parser.go`. -/
def comparisonOperatorTokenIDs : List TokenID :=
  [.greater, .greaterEqual, .less, .lessEqual]

/-- `equalityOperatorTokenIDs` of `parser.go`. -/
def equalityOperatorTokenIDs : List TokenID := [.equalEqual, .bangEqual]

/-- `conjunctionOperatorTokenIDs` of `parser.go`. -/
def conjunctionOperatorTokenIDs : List TokenID := [.andKw]

/-- `disjunctionOperatorTokenIDs` of `parser.go`. -/
def disjunctionOperatorTokenIDs : List TokenID := [.orKw]

/-- The operator-folding loop of `binaryExpression` in `parser.go`:
while one of the operator kinds matches, parse another operand and fold
left into a `BinaryExprNode` (note: never a `LogicalExprNode`, for any
operator list).  On an operand error the source returns the pre-fold
node together with the error. -/
def binaryChain (tks : List TokenHolder) (operatorTokenIDs : List TokenID)
    (getOperand : Nat → PResult Node) :
    Nat → Node → Nat → PResult Node
  | 0, _, _ => .outOfFuel
  | fuel + 1, node, cur =>
    match maybeMatchFirst tks operatorTokenIDs cur with
    | none => .ok node cur
    | some (operator, cur') =>
      (getOperand cur').bind fun rhs cur'' =>
        binaryChain tks operatorTokenIDs getOperand fuel
          (.binaryExpr node operator.GetToken rhs) cur''

/-- `binaryExpression` of `parser.go`: first operand, then the folding
loop. -/
def binaryExpression (tks : List TokenHolder) (operatorTokenIDs : List TokenID)
    (getOperand : Nat → PResult Node) (fuel : Nat) (cur : Nat) : PResult Node :=
  (getOperand cur).bind fun node cur' =>
    binaryChain tks operatorTokenIDs getOperand fuel node cur'

/-- Result of the whole `Parse` call of `parser.go`: the top-level
statements collected so far, paired with the first error if one
occurred; or a Go runtime panic. -/
inductive ParseOutcome
  | done (nodes : List Node) (e : Option PError)
  | panicked
  | outOfFuel
  deriving Repr

end Spork

namespace Spork

/-- One level of the mutually recursive parser routines of `parser.go`.
Each field embeds the Go method of the same (or closely corresponding)
name; the `…Loop` fields embed the `for` loops inside `Parse`, `args`,
`class`, `funcExpr`, `block` and `call`.  A routine at one level calls
routines of the previous level, so the recursion depth is bounded by the
fuel used to build the tower. -/
structure ParserFns where
  parseLoop : List Node → Nat → ParseOutcome
  statement : Nat → PResult Node
  maybeStatement : Nat → PResult (Option Node)
  expression : Nat → PResult Node
  maybeExpression : Nat → PResult (Option Node)
  atom : Nat → PResult Node
  callChain : Node → Nat → PResult Node
  callFn : Nat → PResult Node
  argsLoop : Bool → List Node → Nat → PResult (List Node)
  unary : Nat → PResult Node
  factor : Nat → PResult Node
  term : Nat → PResult Node
  comparison : Nat → PResult Node
  equality : Nat → PResult Node
  conjunction : Nat → PResult Node
  disjunction : Nat → PResult Node
  assignment : Nat → PResult Node
  classLoop : List Node → Nat → PResult (List Node × TokenHolder)
  classFn : Nat → PResult Node
  returnStatement : Nat → PResult Node
  funcLoop : Bool → List TokenHolder → Nat → PResult (List TokenHolder)
  funcExpr : Nat → PResult Node
  blockLoop : List Node → Nat → PResult (List Node)
  block : Nat → PResult Node
  forStatement : Nat → PResult Node
  whileFn : Nat → PResult Node
  conditional : Nat → PResult Node

/-- The zero level of the tower: out of fuel everywhere. -/
def outOfFuelFns : ParserFns where
  parseLoop := fun _ _ => .outOfFuel
  statement := fun _ => .outOfFuel
  maybeStatement := fun _ => .outOfFuel
  expression := fun _ => .outOfFuel
  maybeExpression := fun _ => .outOfFuel
  atom := fun _ => .outOfFuel
  callChain := fun _ _ => .outOfFuel
  callFn := fun _ => .outOfFuel
  argsLoop := fun _ _ _ => .outOfFuel
  unary := fun _ => .outOfFuel
  factor := fun _ => .outOfFuel
  term := fun _ => .outOfFuel
  comparison := fun _ => .outOfFuel
  equality := fun _ => .outOfFuel
  conjunction := fun _ => .outOfFuel
  disjunction := fun _ => .outOfFuel
  assignment := fun _ => .outOfFuel
  classLoop := fun _ _ => .outOfFuel
  classFn := fun _ => .outOfFuel
  returnStatement := fun _ => .outOfFuel
  funcLoop := fun _ _ _ => .outOfFuel
  funcExpr := fun _ => .outOfFuel
  blockLoop := fun _ _ => .outOfFuel
  block := fun _ => .outOfFuel
  forStatement := fun _ => .outOfFuel
  whileFn := fun _ => .outOfFuel
  conditional := fun _ => .outOfFuel

/-- Build the parser tower for a fixed token list, mirroring
`parser.go` routine by routine (see the comments on each field). -/
def mkFns (tks : List TokenHolder) : Nat → ParserFns
  | 0 => outOfFuelFns
  | fuel + 1 =>
    let prev := mkFns tks fuel
    { -- Parse: collect statements until none matches or an error occurs.
      parseLoop := fun statements cur =>
        match prev.maybeStatement cur with
        | .ok none _ => .done statements none
        | .ok (some st) cur' => prev.parseLoop (statements ++ [st]) cur'
        | .err e => .done statements (some e)
        | .panicked => .panicked
        | .outOfFuel => .outOfFuel
      -- statement: maybeStatement, or ExpectedStatementError (built via last).
      statement := fun cur =>
        match prev.maybeStatement cur with
        | .ok none cur' =>
          match last tks cur' with
          | none => .panicked
          | some l => .err (.expectedStatement l)
        | .ok (some st) cur' => .ok st cur'
        | .err e => .err e
        | .panicked => .panicked
        | .outOfFuel => .outOfFuel
      -- maybeStatement: dispatch on the peeked token's kind.
      maybeStatement := fun cur =>
        match peek tks cur with
        | none => .ok none cur
        | some token =>
          match token.GetID with
          | .whileKw => asSome (prev.whileFn cur)
          | .forKw => asSome (prev.forStatement cur)
          | .returnKw => asSome (prev.returnStatement cur)
          | _ => prev.maybeExpression cur
      -- expression: maybeExpression, or ExpectedExpressionError.
      expression := fun cur =>
        match prev.maybeExpression cur with
        | .ok none cur' =>
          match last tks cur' with
          | none => .panicked
          | some l => .err (.expectedExpression l)
        | .ok (some e) cur' => .ok e cur'
        | .err e => .err e
        | .panicked => .panicked
        | .outOfFuel => .outOfFuel
      -- maybeExpression: dispatch on the peeked token's kind.
      maybeExpression := fun cur =>
        match peek tks cur with
        | none => .ok none cur
        | some token =>
          match token.GetID with
          | .leftCurly => asSome (prev.block cur)
          | .classKw => asSome (prev.classFn cur)
          | .ifKw => asSome (prev.conditional cur)
          | .funcKw => asSome (prev.funcExpr cur)
          | _ => asSome (prev.assignment cur)
      -- atom: parenthesized expression, or one of the atomic token kinds,
      -- or NoValueError (whose construction evaluates p.last()).
      atom := fun cur =>
        match maybeMatch tks .leftParen cur with
        | some (_, cur') =>
          (prev.expression cur').bind fun e cur'' =>
            (matchTok tks .rightParen cur'').bind fun _ cur3 =>
              .ok e cur3
        | none =>
          match maybeMatchFirst tks atomicTokenIDs cur with
          | some (value, cur') => .ok (.literalNode value) cur'
          | none =>
            match last tks cur with
            | none => .panicked
            | some l => .err (.noValue l)
      -- the postfix loop of call(): '(' args ')' chains a CallNode; '.'
      -- builds a LookupNode but (in this version) does not consume the
      -- dot before matching the identifier key.
      callChain := fun node cur =>
        match peek tks cur with
        | none => .ok node cur
        | some nextToken =>
          match nextToken.GetID with
          | .leftParen =>
            (prev.argsLoop true [] (cur + 1)).bind fun args cur' =>
              (matchTok tks .rightParen cur').bind fun rp cur'' =>
                prev.callChain (.callNode node nextToken args rp) cur''
          | .dot =>
            (matchIdentifier tks .identifier cur).bind fun key cur' =>
              prev.callChain (.lookupNode node key) cur'
          | _ => .ok node cur
      -- call(): an atom followed by the postfix loop.
      callFn := fun cur =>
        (prev.atom cur).bind fun node cur' => prev.callChain node cur'
      -- the loop of args(): from the second argument on, p.match(Comma)
      -- is evaluated but its result and error are discarded; a nil
      -- maybeExpression ends the loop, after which one trailing comma is
      -- consumed if present.
      argsLoop := fun isFirstArg args cur =>
        let afterComma : PResult Unit :=
          if isFirstArg then .ok () cur
          else
            match matchTok tks .comma cur with
            | .ok _ cur' => .ok () cur'
            | .err _ => .ok () cur
            | .panicked => .panicked
            | .outOfFuel => .outOfFuel
        afterComma.bind fun _ cur1 =>
          match prev.maybeExpression cur1 with
          | .ok none cur2 =>
            match maybeMatch tks .comma cur2 with
            | some (_, cur3) => .ok args cur3
            | none => .ok args cur2
          | .ok (some arg) cur2 => prev.argsLoop false (args ++ [arg]) cur2
          | .err e => .err e
          | .panicked => .panicked
          | .outOfFuel => .outOfFuel
      -- unary: prefix '!' / '-' recursion, otherwise call().
      unary := fun cur =>
        match maybeMatchFirst tks unaryOperatorTokenIDs cur with
        | none => prev.callFn cur
        | some (operator, cur') =>
          (prev.unary cur').bind fun operand cur'' =>
            .ok (.unaryExpr operator.GetToken operand) cur''
      factor := fun cur =>
        binaryExpression tks factorOperatorTokenIDs prev.unary fuel cur
      term := fun cur =>
        binaryExpression tks termOperatorTokenIDs prev.factor fuel cur
      comparison := fun cur =>
        binaryExpression tks comparisonOperatorTokenIDs prev.term fuel cur
      equality := fun cur =>
        binaryExpression tks equalityOperatorTokenIDs prev.comparison fuel cur
      conjunction := fun cur =>
        binaryExpression tks conjunctionOperatorTokenIDs prev.equality fuel cur
      disjunction := fun cur =>
        binaryExpression tks disjunctionOperatorTokenIDs prev.conjunction fuel cur
      -- assignment: a disjunction, optionally '=' and a recursive
      -- assignment; the left side must be an identifier literal.
      assignment := fun cur =>
        (prev.disjunction cur).bind fun expr cur1 =>
          match maybeMatch tks .equal cur1 with
          | none => .ok expr cur1
          | some (equal, cur2) =>
            match expr with
            | .literalNode value =>
              if value.GetID = .identifier then
                (prev.assignment cur2).bind fun rhs cur3 =>
                  .ok (.assignmentNode value equal rhs) cur3
              else .err (.invalidAssignmentTarget (some value))
            | _ => .err (.invalidAssignmentTarget none)
      -- the member loop of class(): identifier '=' expression, after
      -- which the source re-parses a disjunction as the member's value.
      classLoop := fun body cur =>
        match maybeMatch tks .identifier cur with
        | none =>
          (matchTok tks .rightCurly cur).bind fun bodyEnd cur' =>
            .ok (body, bodyEnd) cur'
        | some (identifier, cur1) =>
          (matchTok tks .equal cur1).bind fun equal cur2 =>
            (prev.expression cur2).bind fun _value cur3 =>
              (prev.disjunction cur3).bind fun value cur4 =>
                prev.classLoop (body ++ [Node.assignmentNode identifier equal value]) cur4
      -- class(): header, optional '<' parent, '{' members '}'.
      classFn := fun cur =>
        (matchIdentifier tks .classKw cur).bind fun classTok cur1 =>
          let finish := fun (extendsTok parentClass : Option TokenHolder) cur2 =>
            (matchTok tks .leftCurly cur2).bind fun bodyStart cur3 =>
              (prev.classLoop [] cur3).bind fun (bodyAndEnd : List Node × TokenHolder) cur4 =>
                .ok (.classNode classTok extendsTok parentClass bodyStart
                      bodyAndEnd.1 bodyAndEnd.2) cur4
          match maybeMatch tks .less cur1 with
          | none => finish none none cur1
          | some (extendsTok, cur2) =>
            (matchIdentifier tks .identifier cur2).bind fun parentClass cur3 =>
              finish (some extendsTok) (some parentClass) cur3
      -- return: the keyword and an optional value expression.
      returnStatement := fun cur =>
        (matchIdentifier tks .returnKw cur).bind fun returnTok cur1 =>
          (prev.maybeExpression cur1).bind fun value cur2 =>
            .ok (.returnNode returnTok value) cur2
      -- the parameter loop of funcExpr(): from the second parameter on,
      -- p.match(Comma) is evaluated and discarded; p.match(Identifier)
      -- either yields a parameter or an error, so the source's
      -- `param == nil` break and everything after the loop is dead code.
      -- The unchecked assertion param.(IdentifierToken) would panic on a
      -- non-identifier token.
      funcLoop := fun isFirstParam params cur =>
        let afterComma : PResult Unit :=
          if isFirstParam then .ok () cur
          else
            match matchTok tks .comma cur with
            | .ok _ cur' => .ok () cur'
            | .err _ => .ok () cur
            | .panicked => .panicked
            | .outOfFuel => .outOfFuel
        afterComma.bind fun _ cur1 =>
          (matchTok tks .identifier cur1).bind fun param cur2 =>
            match param with
            | .identifierTok .. => prev.funcLoop false (params ++ [param]) cur2
            | _ => .panicked
      -- funcExpr (this version): 'func', then immediately the parameter
      -- loop — no '(' is matched and no body is parsed.  The trailing
      -- comma / ')' handling is kept although the loop cannot exit
      -- normally.
      funcExpr := fun cur =>
        (matchTok tks .funcKw cur).bind fun funcTok cur1 =>
          (prev.funcLoop true [] cur1).bind fun params cur2 =>
            let cur3 := match maybeMatch tks .comma cur2 with
              | some (_, c) => c
              | none => cur2
            (matchTok tks .rightParen cur3).bind fun rightParen cur4 =>
              .ok (.funcNode funcTok none params (some rightParen)
                    (.blockNode zeroToken [] zeroToken)) cur4
      -- the statement loop of block(): no lookahead for '}' in this
      -- version; it simply asks for statements until one comes back nil.
      blockLoop := fun children cur =>
        match prev.maybeStatement cur with
        | .ok none cur' => .ok children cur'
        | .ok (some st) cur' => prev.blockLoop (children ++ [st]) cur'
        | .err e => .err e
        | .panicked => .panicked
        | .outOfFuel => .outOfFuel
      -- block(): '{' statements '}'; both match results are discarded,
      -- so BodyStart/BodyEnd keep their zero values.
      block := fun cur =>
        (matchTok tks .leftCurly cur).bind fun _ cur1 =>
          (prev.blockLoop [] cur1).bind fun children cur2 =>
            (matchTok tks .rightCurly cur2).bind fun _ cur3 =>
              .ok (.blockNode zeroToken children zeroToken) cur3
      -- for: 'for' '(' init? ';' cond? ';' update? ')' statement.
      forStatement := fun cur =>
        (matchIdentifier tks .forKw cur).bind fun forTok cur1 =>
          (matchTok tks .leftParen cur1).bind fun _ cur2 =>
            (prev.maybeExpression cur2).bind fun initExpr cur3 =>
              (matchTok tks .semicolon cur3).bind fun _ cur4 =>
                (prev.maybeExpression cur4).bind fun condition cur5 =>
                  (matchTok tks .semicolon cur5).bind fun _ cur6 =>
                    (prev.maybeExpression cur6).bind fun update cur7 =>
                      (matchTok tks .rightParen cur7).bind fun _ cur8 =>
                        (prev.statement cur8).bind fun body cur9 =>
                          .ok (.forNode forTok initExpr condition update body) cur9
      -- while (this version): 'while' '(' statement ')' — the body is
      -- parsed between the parentheses and Condition is never assigned.
      whileFn := fun cur =>
        (matchIdentifier tks .whileKw cur).bind fun whileTok cur1 =>
          (matchTok tks .leftParen cur1).bind fun _ cur2 =>
            (prev.statement cur2).bind fun body cur3 =>
              (matchTok tks .rightParen cur3).bind fun _ cur4 =>
                .ok (.whileNode whileTok none body) cur4
      -- conditional: 'if' '(' expression ')' statement ('else' statement)?.
      conditional := fun cur =>
        (matchIdentifier tks .ifKw cur).bind fun ifTok cur1 =>
          (matchTok tks .leftParen cur1).bind fun _ cur2 =>
            (prev.expression cur2).bind fun condition cur3 =>
              (matchTok tks .rightParen cur3).bind fun _ cur4 =>
                (prev.statement cur4).bind fun trueBody cur5 =>
                  match maybeMatch tks .elseKw cur5 with
                  | none => .ok (.conditional ifTok condition trueBody none none) cur5
                  | some (elseTok, cur6) =>
                    (prev.statement cur6).bind fun falseBody cur7 =>
                      .ok (.conditional ifTok condition trueBody
                            (some elseTok) (some falseBody)) cur7 }

/-- `Parse` of `parser.go` on a token list.  The fuel bounds the
recursion depth and loop iterations; it is generous for any input the
concrete theorems below use. -/
def Parse (tks : List TokenHolder) : ParseOutcome :=
  (mkFns tks (16 * tks.length + 64)).parseLoop [] 0

/-- Tokenize a source string and parse the resulting tokens (how
`main.go` wires the two components together). -/
def ParseOfSource (source : String) : ParseOutcome :=
  Parse (Tokenize source).1

end Spork

namespace Spork

/-- Position of an emitted token: its (line, column) pair. -/
def tokPos (t : TokenHolder) : Int × Int := (t.GetLine, t.GetColumn)

/-- Document order on positions: a later position is on a later line, or
on the same line at the same or a later column. -/
def posLe (p q : Int × Int) : Prop := p.1 < q.1 ∨ (p.1 = q.1 ∧ p.2 ≤ q.2)

/-- The token positions of a list are non-decreasing in order, and all of
them lie at or after the start position `p`. -/
def monoFrom : Int × Int → List TokenHolder → Prop
  | _, [] => True
  | p, t :: ts => posLe p (tokPos t) ∧ monoFrom (tokPos t) ts

theorem posLe_trans {p q r : Int × Int} (h1 : posLe p q) (h2 : posLe q r) : posLe p r := by
  obtain ⟨p1, p2⟩ := p
  obtain ⟨q1, q2⟩ := q
  obtain ⟨r1, r2⟩ := r
  simp only [posLe] at h1 h2 ⊢
  omega

theorem monoFrom_anti {p q : Int × Int} {ts : List TokenHolder}
    (h : posLe p q) (hm : monoFrom q ts) : monoFrom p ts := by
  cases ts with
  | nil => trivial
  | cons t ts => exact ⟨posLe_trans h hm.1, hm.2⟩

/-- The column counter never decreases across a `number()` scan. -/
theorem scanNumberAux_column_le :
    ∀ (input : List Char) (isFractional : Bool) (column : Int) (acc : String),
      column ≤ (scanNumberAux isFractional column acc input).2.1 := by
  intro input
  induction input with
  | nil => intro isF column acc; simp [scanNumberAux]
  | cons r rest ih =>
    intro isF column acc
    simp only [scanNumberAux]
    by_cases h1 : r = '.'
    · rw [if_pos h1]
      by_cases h2 : isF = true
      · rw [if_pos h2]
      · rw [if_neg h2]; exact ih true column (acc.push '.')
    · rw [if_neg h1]
      by_cases h2 : isDigitRune r = true
      · rw [if_pos h2]
        calc column ≤ column + 1 := by omega
          _ ≤ _ := ih isF (column + 1) (acc.push r)
      · rw [if_neg h2]

/-- The column counter never decreases across an `identifier()` scan. -/
theorem scanIdentifierAux_column_le :
    ∀ (input : List Char) (column : Int) (acc : String),
      column ≤ (scanIdentifierAux column acc input).2.1 := by
  intro input
  induction input with
  | nil => intro column acc; simp [scanIdentifierAux]
  | cons r rest ih =>
    intro column acc
    simp only [scanIdentifierAux]
    by_cases h1 : isIdentifierRune r = true
    · rw [if_pos h1]
      calc column ≤ column + 1 := by omega
        _ ≤ _ := ih (column + 1) (acc.push r)
    · rw [if_neg h1]

/-- An `identifier()` scan whose first rune is an identifier rune
consumes it. -/
theorem scanIdentifierAux_cons_of_ident {r : Char} (rest : List Char)
    (column : Int) (acc : String) (h : isIdentifierRune r = true) :
    scanIdentifierAux column acc (r :: rest)
      = scanIdentifierAux (column + 1) (acc.push r) rest := by
  simp [scanIdentifierAux, h]

/-- A successful `string()` scan never decreases the column counter. -/
theorem scanString_ok_column_le {delimiter : Char} {tokLine tokCol : Int} :
    ∀ (input : List Char) (column : Int) (isEscaping : Bool) (acc : String)
      (value : String) (column' : Int) (rest : List Char),
      scanString delimiter tokLine tokCol column isEscaping acc input
        = .ok (value, column', rest) →
      column ≤ column' := by
  intro input
  induction input with
  | nil =>
    intro column isEscaping acc value column' rest h
    simp [scanString] at h
  | cons r rest0 ih =>
    intro column isEscaping acc value column' rest h
    simp only [scanString] at h
    by_cases h1 : isEscaping = true
    · rw [if_pos h1] at h
      have := ih (column + 1) false _ value column' rest h
      omega
    · rw [if_neg h1] at h
      by_cases h2 : r = '\\'
      · rw [if_pos h2] at h
        have := ih (column + 1) true acc value column' rest h
        omega
      · rw [if_neg h2] at h
        by_cases h3 : r = delimiter
        · rw [if_pos h3] at h
          obtain ⟨-, h4, -⟩ := Prod.mk.injEq .. ▸ Except.ok.inj h
          omega
        · rw [if_neg h3] at h
          have := ih (column + 1) false (acc.push r) value column' rest h
          omega

/-- Any error a `string()` scan returns is the unterminated-string error
built from the token fields captured at entry — regardless of how much
input the scan consumed before hitting end of input. -/
theorem scanString_error_entry {delimiter : Char} {tokLine tokCol : Int} :
    ∀ (input : List Char) (column : Int) (isEscaping : Bool) (acc : String)
      (e : LexError),
      scanString delimiter tokLine tokCol column isEscaping acc input = .error e →
      e = .unterminatedString delimiter tokLine tokCol := by
  intro input
  induction input with
  | nil =>
    intro column isEscaping acc e h
    simp only [scanString] at h
    exact (Except.error.inj h).symm
  | cons r rest0 ih =>
    intro column isEscaping acc e h
    simp only [scanString] at h
    by_cases h1 : isEscaping = true
    · rw [if_pos h1] at h
      exact ih _ _ _ _ h
    · rw [if_neg h1] at h
      by_cases h2 : r = '\\'
      · rw [if_pos h2] at h
        exact ih _ _ _ _ h
      · rw [if_neg h2] at h
        by_cases h3 : r = delimiter
        · rw [if_pos h3] at h
          cases h
        · rw [if_neg h3] at h
          exact ih _ _ _ _ h

end Spork

namespace Spork

/-- Unfolding of one `Tokenize` loop iteration on a non-empty input. -/
theorem tokenizeLoop_cons (fuel : Nat) (r : Char) (input : List Char)
    (line column : Int) :
    tokenizeLoop (fuel + 1) (r :: input) line column =
      match tokenizeStep r input line (column + 1) with
      | .emit t rest line' column' => consToken t (tokenizeLoop fuel rest line' column')
      | .skip rest line' column' => tokenizeLoop fuel rest line' column'
      | .fail e => ([], some e) := rfl

end Spork

namespace Spork

/-- Facts preserved by one loop-body step: an emitted token sits at the
read position with the line unchanged, and the column counter never
moves backwards; only a newline changes the line, resetting the column. -/
def stepOk (line column : Int) : StepResult → Prop
  | .emit t _ line' column' =>
    t.GetLine = line ∧ t.GetColumn = column ∧ line' = line ∧ column ≤ column'
  | .skip _ line' column' =>
    (line' = line ∧ column ≤ column') ∨ (line' = line + 1 ∧ column' = 0)
  | .fail _ => True

theorem tokenizeSwitch_ok (r : Char) (input : List Char) (line column : Int) :
    stepOk line column (tokenizeSwitch r input line column) := by
  unfold tokenizeSwitch
  by_cases h1 : r = ','
  · rw [if_pos h1]; exact ⟨rfl, rfl, rfl, le_refl _⟩
  rw [if_neg h1]
  by_cases h2 : r = '.'
  · rw [if_pos h2]
    rcases hnum : scanNumberAux false column "" (r :: input) with ⟨text, column2, rest2⟩
    have hle := scanNumberAux_column_le (r :: input) false column ""
    rw [hnum] at hle
    simp only [hnum]
    by_cases hp : parseFloatOk text = true
    · rw [if_pos hp]; exact ⟨rfl, rfl, rfl, hle⟩
    · rw [if_neg hp]; exact ⟨rfl, rfl, rfl, hle⟩
  rw [if_neg h2]
  by_cases h3 : r = '-'
  · rw [if_pos h3]; exact ⟨rfl, rfl, rfl, le_refl _⟩
  rw [if_neg h3]
  by_cases h4 : r = '+'
  · rw [if_pos h4]; exact ⟨rfl, rfl, rfl, le_refl _⟩
  rw [if_neg h4]
  by_cases h5 : r = '*'
  · rw [if_pos h5]; exact ⟨rfl, rfl, rfl, le_refl _⟩
  rw [if_neg h5]
  by_cases h6 : r = '/'
  · rw [if_pos h6]
    rcases hcon : consumeIfNext '/' input with ⟨b, rest2⟩
    cases b
    · exact ⟨rfl, rfl, rfl, le_refl _⟩
    · exact Or.inl ⟨rfl, le_refl _⟩
  rw [if_neg h6]
  by_cases h7 : r = '!'
  · rw [if_pos h7]
    rcases hcon : consumeIfNext '=' input with ⟨b, rest2⟩
    cases b <;> exact ⟨rfl, rfl, rfl, le_refl _⟩
  rw [if_neg h7]
  by_cases h8 : r = '='
  · rw [if_pos h8]
    rcases hcon : consumeIfNext '=' input with ⟨b, rest2⟩
    cases b <;> exact ⟨rfl, rfl, rfl, le_refl _⟩
  rw [if_neg h8]
  by_cases h9 : r = '>'
  · rw [if_pos h9]
    rcases hcon : consumeIfNext '=' input with ⟨b, rest2⟩
    cases b <;> exact ⟨rfl, rfl, rfl, le_refl _⟩
  rw [if_neg h9]
  by_cases h10 : r = '<'
  · rw [if_pos h10]
    rcases hcon : consumeIfNext '=' input with ⟨b, rest2⟩
    cases b <;> exact ⟨rfl, rfl, rfl, le_refl _⟩
  rw [if_neg h10]
  by_cases h11 : r = '"' ∨ r = '\''
  · rw [if_pos h11]
    rcases hstr : scanString r line column column false "" input with e | ⟨value, column2, rest2⟩
    · simp only [hstr]; trivial
    · simp only [hstr]
      exact ⟨rfl, rfl, rfl, scanString_ok_column_le input column false "" _ _ _ hstr⟩
  rw [if_neg h11]
  by_cases h12 : isDigitRune r = true
  · rw [if_pos h12]
    rcases hnum : scanNumberAux false column "" (r :: input) with ⟨text, column2, rest2⟩
    have hle := scanNumberAux_column_le (r :: input) false column ""
    rw [hnum] at hle
    simp only [hnum]
    by_cases hp : parseFloatOk text = true
    · rw [if_pos hp]; exact ⟨rfl, rfl, rfl, hle⟩
    · rw [if_neg hp]; trivial
  rw [if_neg h12]
  by_cases h13 : isRuneStartOfIdentifier r = true
  · rw [if_pos h13]
    have hident : isIdentifierRune r = true := by
      simp [isIdentifierRune, h13]
    rcases hid : scanIdentifierAux (column - 1) "" (r :: input) with ⟨value, column2, rest2⟩
    rw [scanIdentifierAux_cons_of_ident input (column - 1) "" hident] at hid
    have hle := scanIdentifierAux_column_le input (column - 1 + 1) ("".push r)
    rw [hid] at hle
    have hcol : column ≤ column2 := by
      have heq2 : column - 1 + 1 = column := by omega
      rw [heq2] at hle
      exact hle
    simp only [hid]
    rcases hkw : keywordTokenTypes value with _ | kw
    · simp only [hkw]; exact ⟨rfl, rfl, rfl, hcol⟩
    · simp only [hkw]; exact ⟨rfl, rfl, rfl, hcol⟩
  rw [if_neg h13]
  trivial

theorem tokenizeStep_ok (r : Char) (input : List Char) (line column : Int) :
    stepOk line column (tokenizeStep r input line column) := by
  unfold tokenizeStep
  rcases hmap : singleRuneTokenType r with _ | tokenID
  · simp only
    by_cases hsp : isSpaceRune r = true
    · rw [if_pos hsp]
      by_cases hnl : r = '\n'
      · rw [if_pos hnl]; exact Or.inr ⟨rfl, rfl⟩
      · rw [if_neg hnl]; exact Or.inl ⟨rfl, le_refl _⟩
    · rw [if_neg hsp]
      exact tokenizeSwitch_ok r input line column
  · exact ⟨rfl, rfl, rfl, le_refl _⟩

end Spork

namespace Spork

/-- The tokens emitted from any state onward are monotone in document
order, starting at or after the current position — for any fuel, input
and position.  Induction over the loop using `tokenizeStep_ok`. -/
theorem tokenizeLoop_monoFrom :
    ∀ (fuel : Nat) (input : List Char) (line column : Int),
      monoFrom (line, column) (tokenizeLoop fuel input line column).1 := by
  intro fuel
  induction fuel with
  | zero => intro input line column; trivial
  | succ fuel ih =>
    intro input line column
    match input with
    | [] => trivial
    | r :: input =>
      rw [tokenizeLoop_cons]
      have hok := tokenizeStep_ok r input line (column + 1)
      rcases hstep : tokenizeStep r input line (column + 1) with
        ⟨t, rest, line', column'⟩ | ⟨rest, line', column'⟩ | e
      · dsimp only
        rw [hstep] at hok
        obtain ⟨hl, hc, hline, hcol⟩ := hok
        have hm := ih rest line' column'
        rcases hrec : tokenizeLoop fuel rest line' column' with ⟨ts, err⟩
        rw [hrec] at hm
        show monoFrom (line, column) (t :: ts)
        refine ⟨?_, ?_⟩
        · right
          rw [tokPos, hl, hc]
          exact ⟨rfl, by omega⟩
        · refine monoFrom_anti ?_ hm
          rw [tokPos, hl, hc, hline]
          right
          exact ⟨rfl, hcol⟩
      · dsimp only
        rw [hstep] at hok
        have hm := ih rest line' column'
        refine monoFrom_anti ?_ hm
        rcases hok with ⟨hline, hcol⟩ | ⟨hline, hcol⟩
        · right; rw [hline]; exact ⟨rfl, by omega⟩
        · left; omega
      · trivial

end Spork

namespace Spork

/-- C1: the claim says `Tokenize` and `Parse` terminate without a runtime
panic for every input, and in particular a token sequence whose first
token matches no grammar alternative still yields an error value.  In
this code that is false: the source "+" tokenizes cleanly, but parsing
its single-token sequence panics — `atom` finds no alternative and
builds its `NoValueError` via `p.last()`, i.e. `tokenAtOffset (-1)`,
which indexes the token slice at -1. -/
theorem parse_unmatched_first_token_panics :
    (Tokenize "+").2 = none ∧ ParseOfSource "+" = ParseOutcome.panicked :=
  ⟨rfl, rfl⟩

/-- C2: parsing the token sequence of "1 + 2 * 3 / 4 - 5" yields exactly
one top-level node shaped (- (+ 1 (/ (* 2 3) 4)) 5): `*` and `/` bind
tighter than `+` and `-`, and both the term and factor tiers fold their
operator chains left-associatively. -/
theorem parse_arithmetic_precedence :
    ParseOfSource "1 + 2 * 3 / 4 - 5" =
      .done
        [.binaryExpr
          (.binaryExpr
            (.literalNode (.numberTok ⟨.number, 1, 1⟩ "1"))
            ⟨.plus, 1, 4⟩
            (.binaryExpr
              (.binaryExpr
                (.literalNode (.numberTok ⟨.number, 1, 6⟩ "2"))
                ⟨.star, 1, 9⟩
                (.literalNode (.numberTok ⟨.number, 1, 11⟩ "3")))
              ⟨.slash, 1, 14⟩
              (.literalNode (.numberTok ⟨.number, 1, 16⟩ "4"))))
          ⟨.minus, 1, 19⟩
          (.literalNode (.numberTok ⟨.number, 1, 21⟩ "5"))]
        none := rfl

/-- C3: the claim (and the repository's own parser test) expects
"y = func(x){ x = x + 1 return x + 'hello' }" to parse to an Assignment
of `y` to a Func node.  The code instead returns a no-value error whose
`last` token is the `=` at column 3: an assignment right-hand side is
parsed by `assignment` alone, which never reaches `funcExpr`, so `atom`
fails at the `func` keyword (and `funcExpr` itself never matches `(` nor
parses a body, so `func` at statement head fails too). -/
theorem parse_func_assignment_errors :
    ParseOfSource "y = func(x)\x7b x = x + 1 return x + 'hello' \x7d" =
      .done [] (some (.noValue (some (.plain ⟨.equal, 1, 3⟩)))) := rfl

/-- C4: the claim (and the grammar comment in parser.go) says
`while ( e ) s` parses to a While node with condition `e` and body `s`.
The code parses the BODY between the parentheses and never assigns
`Condition`: on "while (x) y" it returns a While node with no condition
whose body is `x`, followed by `y` as a separate top-level statement. -/
theorem parse_while_condition_missing :
    ParseOfSource "while (x) y" =
      .done
        [.whileNode (.identifierTok ⟨.whileKw, 1, 1⟩ "") none
          (.literalNode (.identifierTok ⟨.identifier, 1, 8⟩ "x")),
         .literalNode (.identifierTok ⟨.identifier, 1, 11⟩ "y")]
        none := rfl

/-- C5: the claim says "{ }" parses to a Block node with zero children
because the statement loop looks ahead for `}`.  This `block` has no
such lookahead: the loop asks for another statement, which reaches
`atom` at the `}` and fails with a no-value error (near the `{`). -/
theorem parse_empty_block_errors :
    ParseOfSource "\x7b \x7d" =
      .done [] (some (.noValue (some (.plain ⟨.leftCurly, 1, 1⟩)))) := rfl

/-- C6: the claim says expressions with `and`/`or` produce Logical nodes
(the variant kept distinct from Binary).  `conjunction` and `disjunction`
go through `binaryExpression`, which only ever builds `BinaryExprNode`:
"true and y or z and false" parses to Binary nodes carrying the keyword
operator tokens — with the correct left-associative grouping and
and-binds-tighter-than-or precedence — and no `logicalExpr` node
appears. -/
theorem parse_and_or_builds_binary_nodes :
    ParseOfSource "true and y or z and false" =
      .done
        [.binaryExpr
          (.binaryExpr
            (.literalNode (.identifierTok ⟨.trueKw, 1, 1⟩ ""))
            ⟨.andKw, 1, 6⟩
            (.literalNode (.identifierTok ⟨.identifier, 1, 10⟩ "y")))
          ⟨.orKw, 1, 12⟩
          (.binaryExpr
            (.literalNode (.identifierTok ⟨.identifier, 1, 15⟩ "z"))
            ⟨.andKw, 1, 17⟩
            (.literalNode (.identifierTok ⟨.falseKw, 1, 21⟩ "")))]
        none := rfl

/-- C7 counterexample: tokenizing "1.2.3" does not produce three tokens
(number, dot, number) — it produces exactly two tokens, both number
tokens, because the `.` case first re-attempts number lexing, which
succeeds on ".3". -/
theorem tokenize_dotted_number_not_three_tokens :
    ((Tokenize "1.2.3").1.map TokenHolder.GetID) = [.number, .number] ∧
    (Tokenize "1.2.3").1.length ≠ 3 := by decide

/-- C7 (amended): tokenizing "1.2.3" yields exactly two number tokens —
1.2 (column 1) and the leading-dot float .3 (column 4) — and no lexer
error: the second `.` terminates the first literal and is left
unconsumed, and the next scan's dot case re-attempts number lexing,
which succeeds, so no dot token is emitted. -/
theorem tokenize_dotted_number_two_numbers :
    Tokenize "1.2.3" =
      ([.numberTok ⟨.number, 1, 1⟩ "1.2", .numberTok ⟨.number, 1, 4⟩ ".3"],
       none) := by decide

/-- C8: when the tokenizer is about to consume an opening quote at line
`line`, column `column + 1`, and scanning the remaining input never
finds the closing delimiter, `Tokenize` stops with an
unterminated-string error carrying the opening delimiter and the
opening delimiter's line and column — not the position where input ran
out (`scanString_error_entry` shows the error is independent of how far
the scan advanced). -/
theorem unterminated_string_error_at_opening
    (fuel : Nat) (line column : Int) (delimiter : Char) (rest : List Char)
    (hq : delimiter = '"' ∨ delimiter = '\'') {e : LexError}
    (hs : scanString delimiter line (column + 1) (column + 1) false "" rest
            = .error e) :
    tokenizeLoop (fuel + 1) (delimiter :: rest) line column
      = ([], some (.unterminatedString delimiter line (column + 1))) := by
  have he := scanString_error_entry rest (column + 1) false "" e hs
  subst he
  rcases hq with h | h <;> subst h
  · have hstep : tokenizeStep '"' rest line (column + 1)
        = .fail (.unterminatedString '"' line (column + 1)) := by
      show (match scanString '"' line (column + 1) (column + 1) false "" rest with
            | .error e => StepResult.fail e
            | .ok (value, column', rest') =>
              .emit (.stringTok ⟨.stringLit, line, column + 1⟩ value) rest' line column')
          = .fail (.unterminatedString '"' line (column + 1))
      rw [hs]
    rw [tokenizeLoop_cons, hstep]
  · have hstep : tokenizeStep '\'' rest line (column + 1)
        = .fail (.unterminatedString '\'' line (column + 1)) := by
      show (match scanString '\'' line (column + 1) (column + 1) false "" rest with
            | .error e => StepResult.fail e
            | .ok (value, column', rest') =>
              .emit (.stringTok ⟨.stringLit, line, column + 1⟩ value) rest' line column')
          = .fail (.unterminatedString '\'' line (column + 1))
      rw [hs]
    rw [tokenizeLoop_cons, hstep]

/-- C8 witness: the theorem applied to the opening quote of "'ab"
(line 1, column 1), whose scan reaches end of input. -/
theorem unterminated_string_error_at_opening_witness :
    tokenizeLoop 1 ['\'', 'a', 'b'] 1 0
      = ([], some (.unterminatedString '\'' 1 1)) :=
  unterminated_string_error_at_opening 0 1 0 '\'' ['a', 'b'] (Or.inr rfl) rfl

/-- C9 counterexample: "'a\nb' x" is accepted and the newline inside the
string literal is consumed, yet every emitted token — including the
identifier after the string — reports line 1: the claim's "every newline
code point consumed, wherever it occurs, increments the line counter"
fails for newlines inside string literals. -/
theorem newline_inside_string_keeps_line :
    Tokenize "'a\nb' x" =
      ([.stringTok ⟨.stringLit, 1, 1⟩ "a\nb",
        .identifierTok ⟨.identifier, 1, 7⟩ "x"], none) ∧
    '\n' ∈ "'a\nb' x".data ∧
    ((Tokenize "'a\nb' x").1.map TokenHolder.GetLine) = [1, 1] := by decide

/-- C9 (amended): the positions of the emitted tokens are monotonically
non-decreasing in document order for every input; a newline consumed by
the main scan loop resets the column to 0 and increments the line by
exactly one; a newline consumed inside a string literal advances only
the column, leaving the token's line fields (and the loop's line) as
they were. -/
theorem token_positions_monotone :
    (∀ source : String, monoFrom (1, 0) (Tokenize source).1)
    ∧ (∀ (fuel : Nat) (rest : List Char) (line column : Int),
        tokenizeLoop (fuel + 1) ('\n' :: rest) line column
          = tokenizeLoop fuel rest (line + 1) 0)
    ∧ (∀ (tokLine tokCol column : Int) (acc : String) (rest : List Char),
        scanString '\'' tokLine tokCol column false acc ('\n' :: rest)
          = scanString '\'' tokLine tokCol (column + 1) false (acc.push '\n') rest) :=
  ⟨fun _ => tokenizeLoop_monoFrom _ _ _ _,
   fun _ _ _ _ => rfl,
   fun _ _ _ _ _ => rfl⟩

/-- C10 counterexample: in "<=3 x" the identifier `x` is the fifth
character of its line and its token reports column 5 — not 4, as the
claim's "every two-character operator shifts the reported columns of all
later tokens on the same line one position left" predicts: the
digit-initial number literal `3` double-counts its first digit,
cancelling the operator's missing count. -/
theorem two_char_operator_shift_cancelled :
    Tokenize "<=3 x" =
      ([.plain ⟨.lessEqual, 1, 1⟩, .numberTok ⟨.number, 1, 2⟩ "3",
        .identifierTok ⟨.identifier, 1, 5⟩ "x"], none) ∧
    "<=3 x".data.findIdx (· == 'x') + 1 = 5 := by decide

/-- C10 (amended): a two-character operator advances the column counter
only for its first character — after consuming two input characters the
loop continues with column + 1 — so the number token in "<=3" reports
column 2; the resulting leftward shift of later tokens persists only
until a compensating miscount (such as a digit-initial number literal,
whose first digit is counted twice) realigns them. -/
theorem two_char_operator_single_column_advance :
    (∀ (fuel : Nat) (rest : List Char) (line column : Int),
        tokenizeLoop (fuel + 1) ('<' :: '=' :: rest) line column
          = consToken (.plain ⟨.lessEqual, line, column + 1⟩)
              (tokenizeLoop fuel rest line (column + 1)))
    ∧ Tokenize "<=3" =
        ([.plain ⟨.lessEqual, 1, 1⟩, .numberTok ⟨.number, 1, 2⟩ "3"], none) :=
  ⟨fun _ _ _ _ => rfl, by decide⟩

end Spork
